import Mathlib

/-!
Verification of the somfy-rts-hub client against its design description.

The development shallowly embeds `src/somfyrtshub/hub.py` (together with
`const.py` and `cover.py`): the pure frame codec becomes Lean functions on
byte lists (`List Nat`, each element < 256 where in range), the Python
strings that appear in responses become lists of character codes, fallible
parsing (Python exceptions escaping `getAllCovers`) becomes `Except`, and
the stateful connection handling of `Hub` becomes an explicit step
function over a `HubState` driven by an environment `World` describing the
outcome of the connect / write / read attempts of one request.
-/

deriving instance DecidableEq for Except

namespace Somfy

/-- Character codes of a string literal, used for message payloads. -/
def strLit (s : String) : List Nat := s.data.map Char.toNat

/-! ## Constants and enumerations (`const.py`, `hub.py`) -/

def MAGIC_NUM : Nat := 0xAFFE

def MAX_NAME_LEN : Nat := 30

inductive RES_STATUS where
  | SUCCESS
  | ERROR
  | UNKNOWN
deriving DecidableEq

/-- Lookup `RES_STATUS(n)` as a partial function: the numeric values of the enum. -/
def resStatusOfVal (n : Nat) : Option RES_STATUS :=
  if n = 0 then some .SUCCESS
  else if n = 1 then some .ERROR
  else if n = 2 then some .UNKNOWN
  else none

inductive CMD where
  | STOP
  | UP
  | DOWN
  | PROG
  | DEL
deriving DecidableEq

/-- Wire values of `CMD`; `PROG` and `DEL` share the value 8. -/
def CMD.val : CMD → Nat
  | .STOP => 0x1
  | .UP => 0x2
  | .DOWN => 0x4
  | .PROG => 0x8
  | .DEL => 0x8

inductive OP_CODE where
  | GET_COVERS
  | COVER_CMD
  | ADD_COVER
  | REN_COVER
  | CUSTOM_CMD
deriving DecidableEq

def OP_CODE.val : OP_CODE → Nat
  | .GET_COVERS => 0x1
  | .COVER_CMD => 0x2
  | .ADD_COVER => 0x3
  | .REN_COVER => 0x4
  | .CUSTOM_CMD => 0x5

/-! ## Little-endian packing (`struct.pack` with formats `<H`, `<I`, `B`, `Ns`) -/

/-- Bytes of `struct.pack("<H", v)` for an in-range value. -/
def le16 (v : Nat) : List Nat := [v % 256, v / 256 % 256]

/-- Bytes of `struct.pack("<I", v)` for an in-range value. -/
def le32 (v : Nat) : List Nat :=
  [v % 256, v / 256 % 256, v / 65536 % 256, v / 16777216 % 256]

/-- Python `bytes.ljust(n, pad)`: right-pad to length `n` (no-op when already longer). -/
def ljust (n : Nat) (pad : Nat) (b : List Nat) : List Nat :=
  b ++ List.replicate (n - b.length) pad

/-- The `Ns` fixed-width field of `struct.pack`: truncate to `n` bytes or
zero-pad up to `n` bytes. -/
def packBytesField (n : Nat) (b : List Nat) : List Nat :=
  (b ++ List.replicate (n - b.length) 0).take n

/-- The 30-byte name field produced by `ReqAddCover._toBytes` and
`ReqRenCover._toBytes`: the UTF-8 bytes of the name, `ljust`-padded with
zero bytes and then packed with format `30s`.  The argument is the UTF-8
encoding of the name. -/
def nameField (nb : List Nat) : List Nat :=
  packBytesField MAX_NAME_LEN (ljust MAX_NAME_LEN 0 nb)

/-! ## Request bodies (`ReqCoverCmd`, `ReqAddCover`, `ReqRenCover`,
`ReqCustomCmd`) and the header (`Hub._buildHeader`) -/

/-- Body `ReqCoverCmd._toBytes`: `struct.pack("<IB", remoteId, cmd.value)`. -/
def reqCoverCmdToBytes (remoteId : Nat) (cmd : CMD) : List Nat :=
  le32 remoteId ++ [cmd.val]

/-- Body `ReqAddCover._toBytes`: `struct.pack("<II30s", remoteId, rollingCode,
name.encode("utf-8").ljust(30, 0))`. -/
def reqAddCoverToBytes (remoteId rollingCode : Nat) (nb : List Nat) : List Nat :=
  le32 remoteId ++ le32 rollingCode ++ nameField nb

/-- Body `ReqRenCover._toBytes`: `struct.pack("<I30s", remoteId, padded name)`. -/
def reqRenCoverToBytes (remoteId : Nat) (nb : List Nat) : List Nat :=
  le32 remoteId ++ nameField nb

/-- Body `ReqCustomCmd._toBytes`: `struct.pack("<IIBB", remoteId, rollingCode,
command.value, frameRepeat)`. -/
def reqCustomCmdToBytes (remoteId rollingCode : Nat) (cmd : CMD) (frameRepeat : Nat) :
    List Nat :=
  le32 remoteId ++ le32 rollingCode ++ [cmd.val, frameRepeat % 256]

/-- Header `Hub._buildHeader`: `struct.pack("<HB", MAGIC_NUM, opcode.value)`. -/
def buildHeader (op : OP_CODE) : List Nat :=
  le16 MAGIC_NUM ++ [op.val]

/-! ## Response decoding (read phase of `Hub._sendRequest`)

`_sendRequest` reads one buffer `rb`, decodes it as ASCII (any byte ≥ 0x80
raises `UnicodeDecodeError`, caught by the surrounding handler), rejects an
empty string, and maps the first character through `int` and `RES_STATUS`;
any exception in that block is caught and turned into an ERROR result. -/

structure Res where
  status : RES_STATUS
  body : List Nat
deriving DecidableEq

/-- Mapping `RES_STATUS(int(r[0]))` on a character code: only the digits 0, 1, 2
succeed; a non-digit makes `int` raise, a digit 3–9 makes `RES_STATUS`
raise, and both exceptions land in the same handler. -/
def statusOfLeadChar (c : Nat) : Option RES_STATUS :=
  if 48 ≤ c ∧ c ≤ 57 then resStatusOfVal (c - 48) else none

def decodeResponse (rb : List Nat) : Res :=
  if rb.all (fun b => b < 128) then
    match rb with
    | [] => ⟨.ERROR, strLit ("invalid response")⟩
    | c :: rest =>
      match statusOfLeadChar c with
      | some st => ⟨st, rest⟩
      | none => ⟨.ERROR, strLit ("Read error")⟩
  else ⟨.ERROR, strLit ("Read error")⟩

/-- CLAIM C1: the request frame for `CoverCmd(12, UP)` is the little-endian
magic `0xAFFE`, the opcode byte `COVER_CMD = 2`, then the body
`0C 00 00 00 02`; and the `CustomCmd(12, 10, UP, 5)` body after the header
is `0C 00 00 00 0A 00 00 00 02 05`. -/
theorem C1_frame_encoding :
    buildHeader .COVER_CMD ++ reqCoverCmdToBytes 12 .UP =
      [0xFE, 0xAF, 0x02, 0x0C, 0x00, 0x00, 0x00, 0x02] ∧
    OP_CODE.val .CUSTOM_CMD = 5 ∧
    reqCustomCmdToBytes 12 10 .UP 5 =
      [0x0C, 0x00, 0x00, 0x00, 0x0A, 0x00, 0x00, 0x00, 0x02, 0x05] := by
  decide

lemma statusOfLeadChar_none (c : Nat) (h48 : c ≠ 48) (h49 : c ≠ 49) (h50 : c ≠ 50) :
    statusOfLeadChar c = none := by
  by_cases hd : 48 ≤ c ∧ c ≤ 57
  · have h0 : c - 48 ≠ 0 := by omega
    have h1 : c - 48 ≠ 1 := by omega
    have h2 : c - 48 ≠ 2 := by omega
    simp [statusOfLeadChar, resStatusOfVal, hd, h0, h1, h2]
  · simp [statusOfLeadChar, hd]

/-- CLAIM C2 (amended): a response whose bytes are all ASCII-decodable and
whose first character is the digit 0, 1 or 2 decodes to SUCCESS, ERROR or
UNKNOWN with the rest of the payload as the body verbatim; a response with
any other leading byte, and an empty response, decodes to status ERROR.
The ASCII restriction is the amendment: a non-ASCII byte anywhere makes the
`decode("ascii")` call fail, which is mapped to ERROR even when the leading
byte is the digit 0. -/
theorem C2_response_decoding :
    (∀ rest : List Nat, rest.all (fun b => b < 128) = true →
        decodeResponse (48 :: rest) = ⟨.SUCCESS, rest⟩) ∧
    (∀ rest : List Nat, rest.all (fun b => b < 128) = true →
        decodeResponse (49 :: rest) = ⟨.ERROR, rest⟩) ∧
    (∀ rest : List Nat, rest.all (fun b => b < 128) = true →
        decodeResponse (50 :: rest) = ⟨.UNKNOWN, rest⟩) ∧
    (∀ c : Nat, ∀ rest : List Nat, c ≠ 48 → c ≠ 49 → c ≠ 50 →
        (decodeResponse (c :: rest)).status = .ERROR) ∧
    (decodeResponse []).status = .ERROR := by
  refine ⟨?_, ?_, ?_, ?_, ?_⟩
  · intro rest h
    simp [decodeResponse, h, statusOfLeadChar, resStatusOfVal]
  · intro rest h
    simp [decodeResponse, h, statusOfLeadChar, resStatusOfVal]
  · intro rest h
    simp [decodeResponse, h, statusOfLeadChar, resStatusOfVal]
  · intro c rest h48 h49 h50
    by_cases hall : (c :: rest).all (fun b => b < 128) = true
    · simp [decodeResponse, hall, statusOfLeadChar_none c h48 h49 h50]
    · simp [decodeResponse, hall]
  · simp [decodeResponse]

/-- CLAIM C2 (counterexample): the response `b"0\xff"` has leading character
`'0'` but decodes to ERROR, not SUCCESS, because the ASCII decode of the
whole buffer fails first. -/
theorem C2_counterexample :
    (decodeResponse [48, 255]).status = .ERROR ∧
      decodeResponse [48, 255] ≠ ⟨.SUCCESS, [255]⟩ := by
  decide

theorem C2_response_decoding_witness :
    decodeResponse [48, 65] = ⟨.SUCCESS, [65]⟩ ∧
      (decodeResponse [51, 65]).status = .ERROR :=
  ⟨C2_response_decoding.1 [65] (by decide),
   C2_response_decoding.2.2.2.1 51 [65] (by decide) (by decide) (by decide)⟩

/-! ## Name-field lemmas -/

lemma nameField_eq_of_le (nb : List Nat) (h : nb.length ≤ 30) :
    nameField nb = nb ++ List.replicate (30 - nb.length) 0 := by
  have h1 : (nb ++ List.replicate (30 - nb.length) 0).length = 30 := by
    simp only [List.length_append, List.length_replicate]; omega
  show ((nb ++ List.replicate (30 - nb.length) 0) ++
      List.replicate (30 - (nb ++ List.replicate (30 - nb.length) 0).length) 0).take 30 =
      nb ++ List.replicate (30 - nb.length) 0
  simp only [h1, Nat.sub_self, List.replicate_zero, List.append_nil]
  exact List.take_of_length_le (le_of_eq h1)

lemma nameField_eq_of_gt (nb : List Nat) (h : 30 < nb.length) :
    nameField nb = nb.take 30 := by
  have h0 : 30 - nb.length = 0 := by omega
  show ((nb ++ List.replicate (30 - nb.length) 0) ++
      List.replicate (30 - (nb ++ List.replicate (30 - nb.length) 0).length) 0).take 30 =
      nb.take 30
  simp only [h0, List.replicate_zero, List.append_nil]

lemma nameField_length (nb : List Nat) : (nameField nb).length = 30 := by
  show (((nb ++ List.replicate (30 - nb.length) 0) ++
      List.replicate (30 - (nb ++ List.replicate (30 - nb.length) 0).length) 0).take 30).length
      = 30
  simp only [List.length_take, List.length_append, List.length_replicate]
  omega

/-- CLAIM C3: for every name whose UTF-8 encoding `nb` is at most 30 bytes,
the name field of the AddCover and RenCover bodies is exactly the 30 bytes
obtained by right-padding `nb` with zero bytes. -/
theorem C3_name_padding (nb : List Nat) (h : nb.length ≤ 30) (rid rc : Nat) :
    reqAddCoverToBytes rid rc nb =
      le32 rid ++ le32 rc ++ (nb ++ List.replicate (30 - nb.length) 0) ∧
    reqRenCoverToBytes rid nb =
      le32 rid ++ (nb ++ List.replicate (30 - nb.length) 0) ∧
    (nb ++ List.replicate (30 - nb.length) 0).length = 30 := by
  refine ⟨?_, ?_, ?_⟩
  · unfold reqAddCoverToBytes
    rw [nameField_eq_of_le nb h]
  · unfold reqRenCoverToBytes
    rw [nameField_eq_of_le nb h]
  · simp only [List.length_append, List.length_replicate]
    omega

theorem C3_name_padding_witness :
    reqAddCoverToBytes 12 0 (strLit ("Test1")) =
      le32 12 ++ le32 0 ++ (strLit ("Test1") ++ List.replicate (30 - (strLit ("Test1")).length) 0) ∧
    reqRenCoverToBytes 12 (strLit ("Test1")) =
      le32 12 ++ (strLit ("Test1") ++ List.replicate (30 - (strLit ("Test1")).length) 0) ∧
    (strLit ("Test1") ++ List.replicate (30 - (strLit ("Test1")).length) 0).length = 30 :=
  C3_name_padding (strLit ("Test1")) (by decide) 12 0

/-- CLAIM C4 (counterexample): a 31-byte name (31 times `a`) is not rejected;
`ReqAddCover._toBytes` still produces a frame body, with the name field
silently truncated to the first 30 bytes by the `30s` pack format. -/
theorem C4_counterexample :
    reqAddCoverToBytes 0 0 (List.replicate 31 97) =
      le32 0 ++ le32 0 ++ List.replicate 30 97 ∧
    (List.replicate 31 97).length = 31 := by
  decide

/-- CLAIM C4 (amended): a name whose UTF-8 encoding exceeds 30 bytes is not
a construction-time error: `_toBytes` silently truncates it to its first 30
bytes and the body is produced (and would be sent) anyway. -/
theorem C4_truncation (nb : List Nat) (h : 30 < nb.length) (rid rc : Nat) :
    reqAddCoverToBytes rid rc nb = le32 rid ++ le32 rc ++ nb.take 30 ∧
    reqRenCoverToBytes rid nb = le32 rid ++ nb.take 30 := by
  refine ⟨?_, ?_⟩
  · unfold reqAddCoverToBytes
    rw [nameField_eq_of_gt nb h]
  · unfold reqRenCoverToBytes
    rw [nameField_eq_of_gt nb h]

theorem C4_truncation_witness :
    reqAddCoverToBytes 3 4 (List.replicate 31 98) =
      le32 3 ++ le32 4 ++ (List.replicate 31 98).take 30 ∧
    reqRenCoverToBytes 3 (List.replicate 31 98) =
      le32 3 ++ (List.replicate 31 98).take 30 :=
  C4_truncation (List.replicate 31 98) (by decide) 3 4

/-- CLAIM C10: for every name, of any byte length, the AddCover body is
exactly 38 bytes and the RenCover body exactly 34 bytes; when the name
exceeds 30 bytes the encoder silently truncates it to its first 30 bytes. -/
theorem C10_fixed_width_bodies (nb : List Nat) (rid rc : Nat) :
    (reqAddCoverToBytes rid rc nb).length = 38 ∧
    (reqRenCoverToBytes rid nb).length = 34 ∧
    (30 < nb.length → nameField nb = nb.take 30) := by
  refine ⟨?_, ?_, fun h => nameField_eq_of_gt nb h⟩
  · unfold reqAddCoverToBytes
    simp [le32, List.length_append, nameField_length]
  · unfold reqRenCoverToBytes
    simp [le32, List.length_append, nameField_length]

theorem C10_fixed_width_bodies_witness :
    (reqAddCoverToBytes 0 0 (List.replicate 31 97)).length = 38 ∧
    (reqRenCoverToBytes 0 (List.replicate 31 97)).length = 34 ∧
    nameField (List.replicate 31 97) = (List.replicate 31 97).take 30 :=
  ⟨(C10_fixed_width_bodies (List.replicate 31 97) 0 0).1,
   (C10_fixed_width_bodies (List.replicate 31 97) 0 0).2.1,
   (C10_fixed_width_bodies (List.replicate 31 97) 0 0).2.2 (by decide)⟩

/-! ## Connection handling (`Hub.__init__`, `Hub._connect`, `Hub._sendRequest`)

The asyncio stream pair is modelled by explicit handles: `writer` carries
the `is_closing()` flag and an identity, `reader` carries the identity of
the stream it belongs to.  A `World` fixes the outcome of the connect,
write and read attempts of one `_sendRequest` call, and a `Trace` records
the connect attempts made and the bytes handed to `writer.write`. -/

structure StreamH where
  isClosing : Bool
  sid : Nat
deriving DecidableEq

structure HubState where
  writer : Option StreamH
  reader : Option Nat
deriving DecidableEq

/-- Constructor `Hub.__init__`: both handles start out `None`. -/
def hubInit : HubState := ⟨none, none⟩

/-- The reconnect condition of `_sendRequest`:
`self.writer is None or self.writer.is_closing()`. -/
def needsConnect (s : HubState) : Bool :=
  match s.writer with
  | none => true
  | some st => st.isClosing

structure World where
  connectOk : Bool
  newSid : Nat
  writeOk : Bool
  readBytes : Option (List Nat)
deriving DecidableEq

structure Trace where
  connectAttempts : Nat
  bytesWritten : List Nat
deriving DecidableEq

structure StepOut where
  state : HubState
  result : Res
  trace : Trace
deriving DecidableEq

/-- The write-and-read phase of `_sendRequest`, after the connection check:
`writer.write(data); await writer.drain()` then `reader.read(1024)` and the
response decode, each failure caught and mapped to an ERROR result. -/
def ioPhase (s : HubState) (w : World) (ca : Nat) (data : List Nat) : StepOut :=
  if w.writeOk then
    match w.readBytes with
    | some rb => ⟨s, decodeResponse rb, ⟨ca, data⟩⟩
    | none => ⟨s, ⟨.ERROR, strLit ("Read error")⟩, ⟨ca, data⟩⟩
  else ⟨s, ⟨.ERROR, strLit ("Write error")⟩, ⟨ca, data⟩⟩

/-- Method `Hub._sendRequest`: reconnect if needed (a failed `_connect` leaves the
handles untouched and returns the connection-failure result before any
byte is written), then build `header + body` and run the I/O phase. -/
def sendRequest (s : HubState) (w : World) (op : OP_CODE) (body : List Nat) : StepOut :=
  if needsConnect s then
    if w.connectOk then
      ioPhase ⟨some ⟨false, w.newSid⟩, some w.newSid⟩ w 1 (buildHeader op ++ body)
    else ⟨s, ⟨.ERROR, strLit ("connection to hub failed")⟩, ⟨1, []⟩⟩
  else ioPhase s w 0 (buildHeader op ++ body)

/-- An external close of the established connection (peer shutdown or
transport loss): `writer.is_closing()` becomes true, the handles remain. -/
def closeWriter (s : HubState) : HubState :=
  match s.writer with
  | none => s
  | some st => ⟨some ⟨true, st.sid⟩, s.reader⟩

/-- Environment events a hub object can undergo between construction and
any later point: a public operation, or an external close. -/
inductive Event where
  | oper (w : World) (op : OP_CODE) (body : List Nat)
  | close

def runEvents : HubState → List Event → HubState
  | s, [] => s
  | s, .oper w op body :: es => runEvents (sendRequest s w op body).state es
  | s, .close :: es => runEvents (closeWriter s) es

lemma ioPhase_state (s : HubState) (w : World) (ca : Nat) (data : List Nat) :
    (ioPhase s w ca data).state = s := by
  unfold ioPhase
  split
  · split <;> rfl
  · rfl

lemma ioPhase_trace (s : HubState) (w : World) (ca : Nat) (data : List Nat) :
    (ioPhase s w ca data).trace = ⟨ca, data⟩ := by
  unfold ioPhase
  split
  · split <;> rfl
  · rfl

/-- CLAIM C7: when the connection must be (re-)established and the single
connect attempt fails, the operation immediately returns the ERROR result
with the connection-failure message, writes no bytes, makes exactly one
connect attempt, and leaves the state unchanged.  This holds for every
opcode and body, hence for every public operation. -/
theorem C7_connect_failure (s : HubState) (w : World) (op : OP_CODE) (body : List Nat)
    (hn : needsConnect s = true) (hc : w.connectOk = false) :
    sendRequest s w op body =
      ⟨s, ⟨.ERROR, strLit ("connection to hub failed")⟩, ⟨1, []⟩⟩ := by
  unfold sendRequest
  rw [hn, hc]
  simp

theorem C7_connect_failure_witness :
    sendRequest hubInit ⟨false, 0, true, none⟩ .GET_COVERS [] =
      ⟨hubInit, ⟨.ERROR, strLit ("connection to hub failed")⟩, ⟨1, []⟩⟩ :=
  C7_connect_failure hubInit ⟨false, 0, true, none⟩ .GET_COVERS [] (by decide) (by decide)

lemma sendRequest_attempts (s : HubState) (w : World) (op : OP_CODE) (body : List Nat) :
    (sendRequest s w op body).trace.connectAttempts =
      (if needsConnect s then 1 else 0) := by
  unfold sendRequest
  split
  · split
    · rw [ioPhase_trace]
    · rfl
  · rw [ioPhase_trace]

lemma sendRequest_writer_live (s : HubState) (w : World) (op : OP_CODE) (body : List Nat)
    (hc : w.connectOk = true) :
    needsConnect (sendRequest s w op body).state = false := by
  unfold sendRequest
  split
  · rw [ioPhase_state]
    rfl
  · next h =>
    rw [ioPhase_state]
    simp only [Bool.not_eq_true] at h
    exact h

/-- CLAIM C8: a connect is attempted exactly when no writer exists or its
write side is closing; consequently, after any operation whose connect
attempt (if any) succeeded, a second operation makes no new connect attempt
and keeps the very same writer handle, as long as the connection was not
closed in between. -/
theorem C8_connection_reuse (s : HubState) (w1 w2 : World) (op1 op2 : OP_CODE)
    (b1 b2 : List Nat) (hc : w1.connectOk = true) :
    ((sendRequest (sendRequest s w1 op1 b1).state w2 op2 b2).trace.connectAttempts = 0 ∧
     (sendRequest (sendRequest s w1 op1 b1).state w2 op2 b2).state.writer =
       (sendRequest s w1 op1 b1).state.writer) ∧
    ∀ s9 : HubState, ∀ w9 : World, ∀ op9 : OP_CODE, ∀ b9 : List Nat,
      (sendRequest s9 w9 op9 b9).trace.connectAttempts =
        (if needsConnect s9 then 1 else 0) := by
  have hlive := sendRequest_writer_live s w1 op1 b1 hc
  refine ⟨⟨?_, ?_⟩, fun s9 w9 op9 b9 => sendRequest_attempts s9 w9 op9 b9⟩
  · rw [sendRequest_attempts, hlive]
    rfl
  · conv_lhs => rw [sendRequest]
    rw [hlive]
    simp only [Bool.false_eq_true, if_false]
    rw [ioPhase_state]

theorem C8_connection_reuse_witness :
    ((sendRequest (sendRequest hubInit ⟨true, 5, true, some [48]⟩ .GET_COVERS []).state
        ⟨true, 9, true, some [48]⟩ .GET_COVERS []).trace.connectAttempts = 0 ∧
     (sendRequest (sendRequest hubInit ⟨true, 5, true, some [48]⟩ .GET_COVERS []).state
        ⟨true, 9, true, some [48]⟩ .GET_COVERS []).state.writer =
       (sendRequest hubInit ⟨true, 5, true, some [48]⟩ .GET_COVERS []).state.writer) ∧
    ∀ s9 : HubState, ∀ w9 : World, ∀ op9 : OP_CODE, ∀ b9 : List Nat,
      (sendRequest s9 w9 op9 b9).trace.connectAttempts =
        (if needsConnect s9 then 1 else 0) :=
  C8_connection_reuse hubInit ⟨true, 5, true, some [48]⟩ ⟨true, 9, true, some [48]⟩
    .GET_COVERS .GET_COVERS [] [] (by decide)

/-- The all-or-nothing handle invariant: the reader handle is present
exactly when the writer handle is present. -/
def handlesAligned (s : HubState) : Prop := s.writer.isSome = s.reader.isSome

lemma sendRequest_aligned (s : HubState) (w : World) (op : OP_CODE) (body : List Nat)
    (h : handlesAligned s) : handlesAligned (sendRequest s w op body).state := by
  unfold sendRequest
  split
  · split
    · rw [ioPhase_state]
      rfl
    · exact h
  · rw [ioPhase_state]
    exact h

lemma closeWriter_aligned (s : HubState) (h : handlesAligned s) :
    handlesAligned (closeWriter s) := by
  unfold closeWriter
  unfold handlesAligned at h ⊢
  split
  · exact h
  · next st heq =>
    rw [heq] at h
    simpa using h

lemma runEvents_aligned (es : List Event) (s : HubState) (h : handlesAligned s) :
    handlesAligned (runEvents s es) := by
  induction es generalizing s with
  | nil => exact h
  | cons e es ih =>
    cases e with
    | oper w op body =>
      exact ih _ (sendRequest_aligned s w op body h)
    | close =>
      exact ih _ (closeWriter_aligned s h)

/-- CLAIM C9 (amended): in every reachable state the reader handle is
present exactly when the writer handle is present, and a failed connect
attempt leaves both handles untouched — in particular both are still `None`
when the hub had never connected; but a previously established (possibly
closed) pair of handles is retained, not reset to `None`. -/
theorem C9_handle_invariant :
    (∀ es : List Event, handlesAligned (runEvents hubInit es)) ∧
    (∀ s : HubState, ∀ w : World, ∀ op : OP_CODE, ∀ body : List Nat,
      needsConnect s = true → w.connectOk = false →
      (sendRequest s w op body).state = s) ∧
    (∀ w : World, ∀ op : OP_CODE, ∀ body : List Nat, w.connectOk = false →
      (sendRequest hubInit w op body).state.writer = none ∧
      (sendRequest hubInit w op body).state.reader = none) := by
  refine ⟨fun es => runEvents_aligned es hubInit rfl, ?_, ?_⟩
  · intro s w op body hn hc
    rw [C7_connect_failure s w op body hn hc]
  · intro w op body hc
    have h := C7_connect_failure hubInit w op body (by decide) hc
    rw [h]
    exact ⟨rfl, rfl⟩

theorem C9_handle_invariant_witness :
    handlesAligned (runEvents hubInit [.oper ⟨true, 5, true, some [48]⟩ .GET_COVERS [],
        .close, .oper ⟨false, 0, true, none⟩ .GET_COVERS []]) ∧
    (sendRequest hubInit ⟨false, 0, true, none⟩ .ADD_COVER []).state = hubInit :=
  ⟨C9_handle_invariant.1 _,
   C9_handle_invariant.2.1 hubInit ⟨false, 0, true, none⟩ .ADD_COVER [] (by decide) (by decide)⟩

/-- CLAIM C9 (counterexample): after a successful connection, an external
close, and then an operation whose reconnect attempt fails, the failed
connect attempt leaves both stale handles present — they are not reset to
`None`, contradicting the claim that after a failed connect attempt both
handles are simultaneously absent. -/
theorem C9_counterexample :
    ((sendRequest (closeWriter (sendRequest hubInit ⟨true, 7, true, some [48]⟩
        .GET_COVERS []).state) ⟨false, 0, true, none⟩ .GET_COVERS []).trace.connectAttempts
      = 1) ∧
    ((sendRequest (closeWriter (sendRequest hubInit ⟨true, 7, true, some [48]⟩
        .GET_COVERS []).state) ⟨false, 0, true, none⟩ .GET_COVERS []).result.status
      = .ERROR) ∧
    ((sendRequest (closeWriter (sendRequest hubInit ⟨true, 7, true, some [48]⟩
        .GET_COVERS []).state) ⟨false, 0, true, none⟩ .GET_COVERS []).state.writer
      = some ⟨true, 7⟩) ∧
    ((sendRequest (closeWriter (sendRequest hubInit ⟨true, 7, true, some [48]⟩
        .GET_COVERS []).state) ⟨false, 0, true, none⟩ .GET_COVERS []).state.reader
      = some 7) := by
  decide

/-! ## GetCovers body parsing (`Hub.getAllCovers`, `Cover.__init__`)

`getAllCovers` evaluates
`[Cover(self, *row.split(";")) for row in r.body.splitlines() if row]`
with no exception handler: a row that does not split into exactly three
fields raises `TypeError`, and a remoteId or rollingCode field that `int`
rejects raises `ValueError`; either exception escapes the call.  Strings
are lists of character codes here (the body was ASCII-decoded). -/

inductive PyErr where
  | typeError
  | valueError
deriving DecidableEq

/-- The line-boundary characters of `str.splitlines` in the ASCII range. -/
def isLineBreakN (c : Nat) : Bool :=
  decide (c = 10 ∨ c = 11 ∨ c = 12 ∨ c = 13 ∨ c = 28 ∨ c = 29 ∨ c = 30)

/-- Python `str.splitlines`: split at line boundaries, treating `\r\n` as one
boundary and producing no trailing empty line.  The Bool flag records that
the previously consumed character was a carriage return, so that a line
feed directly after it is swallowed instead of opening a new line. -/
def pySplitlinesAux : Bool → List Nat → List Nat → List (List Nat)
  | _, [], acc => if acc.isEmpty then [] else [acc.reverse]
  | afterCR, c :: rest, acc =>
    if afterCR ∧ c = 10 then pySplitlinesAux false rest acc
    else if isLineBreakN c then
      acc.reverse :: pySplitlinesAux (decide (c = 13)) rest []
    else pySplitlinesAux false rest (c :: acc)

def pySplitlines (s : List Nat) : List (List Nat) := pySplitlinesAux false s []

/-- Python `str.split(sep)` for a one-character separator: always at least one
field, empty fields preserved. -/
def pySplitAux (sep : Nat) : List Nat → List Nat → List (List Nat)
  | [], acc => [acc.reverse]
  | c :: rest, acc =>
    if c = sep then acc.reverse :: pySplitAux sep rest []
    else pySplitAux sep rest (c :: acc)

def pySplit (sep : Nat) (s : List Nat) : List (List Nat) := pySplitAux sep s []

/-- The whitespace characters `int()` strips, in the ASCII range. -/
def isSpaceN (c : Nat) : Bool :=
  decide (c = 32 ∨ (9 ≤ c ∧ c ≤ 13) ∨ (28 ≤ c ∧ c ≤ 31))

def isDigitN (c : Nat) : Bool := decide (48 ≤ c ∧ c ≤ 57)

def pyStrip (s : List Nat) : List Nat :=
  ((s.dropWhile isSpaceN).reverse.dropWhile isSpaceN).reverse

/-- Digits after the first: decimal accumulation, allowing a single
underscore between two digits as `int()` does (code 95 is the underscore).
The Bool flag records that the previous character was an underscore, which
must be followed by a digit and must not end the string. -/
def pyDigitsTailF : Bool → List Nat → Nat → Option Nat
  | afterU, [], acc => if afterU then none else some acc
  | afterU, c :: rest, acc =>
    if c = 95 then (if afterU then none else pyDigitsTailF true rest acc)
    else if isDigitN c then pyDigitsTailF false rest (acc * 10 + (c - 48))
    else none

def pyDigitsTail (l : List Nat) (acc : Nat) : Option Nat := pyDigitsTailF false l acc

def natPart (s : List Nat) : Option Nat :=
  match s with
  | [] => none
  | c :: rest => if isDigitN c then pyDigitsTail rest (c - 48) else none

/-- Python `int(s)` on an ASCII string: strip whitespace, optional sign
(codes 43 and 45), then a nonempty digit sequence; `none` models the
`ValueError`. -/
def pyInt (s : List Nat) : Option Int :=
  match pyStrip s with
  | [] => none
  | c :: rest =>
    if c = 43 then (natPart rest).map (fun n => (n : Int))
    else if c = 45 then (natPart rest).map (fun n => -(n : Int))
    else (natPart (c :: rest)).map (fun n => (n : Int))

structure Cover where
  name : List Nat
  remoteId : Int
  rollingCode : Int
deriving DecidableEq

/-- Construction `Cover(self, *row.split(";"))`: three fields construct a cover (the
numeric fields through `int`), any other field count is a `TypeError`. -/
def coverOfRow (row : List Nat) : Except PyErr Cover :=
  match pySplit 59 row with
  | [n, d1, d2] =>
    match pyInt d1 with
    | none => .error .valueError
    | some ri =>
      match pyInt d2 with
      | none => .error .valueError
      | some rc => .ok ⟨n, ri, rc⟩
  | _ => .error .typeError

/-- The list comprehension: rows in received order, first exception wins. -/
def exMapM (f : List Nat → Except PyErr Cover) : List (List Nat) → Except PyErr (List Cover)
  | [] => .ok []
  | x :: xs =>
    match f x with
    | .error e => .error e
    | .ok y =>
      match exMapM f xs with
      | .error e => .error e
      | .ok ys => .ok (y :: ys)

def parseCovers (body : List Nat) : Except PyErr (List Cover) :=
  exMapM coverOfRow ((pySplitlines body).filter (fun r => !r.isEmpty))

inductive CoversBody where
  | msg (m : List Nat)
  | covers (cs : List Cover)
deriving DecidableEq

structure ResCovers where
  status : RES_STATUS
  body : CoversBody
deriving DecidableEq

/-- The tail of `Hub.getAllCovers` applied to the `_sendRequest` result: a
non-SUCCESS result is returned verbatim; otherwise the body is parsed, any
exception escaping the call. -/
def getAllCoversFromRes (r : Res) : Except PyErr ResCovers :=
  if r.status ≠ .SUCCESS then .ok ⟨r.status, .msg r.body⟩
  else
    match parseCovers r.body with
    | .error e => .error e
    | .ok cs => .ok ⟨.SUCCESS, .covers cs⟩

def getAllCoversFromResponse (rb : List Nat) : Except PyErr ResCovers :=
  getAllCoversFromRes (decodeResponse rb)

/-- Method `Hub.getAllCovers` end to end: one `_sendRequest` with opcode
`GET_COVERS` and no body, then the parse of its result. -/
def getAllCoversOp (s : HubState) (w : World) : HubState × Except PyErr ResCovers :=
  ((sendRequest s w .GET_COVERS []).state,
   getAllCoversFromRes (sendRequest s w .GET_COVERS []).result)

/-! ## Round-trip lemmas for the GetCovers body -/

def digitsVal (s : List Nat) : Nat := s.foldl (fun a c => a * 10 + (c - 48)) 0

lemma isDigitN_bounds (c : Nat) (h : isDigitN c = true) : 48 ≤ c ∧ c ≤ 57 := by
  simpa [isDigitN] using h

lemma digit_ne_semi (c : Nat) (h : isDigitN c = true) : ¬(c = 59) := by
  have := isDigitN_bounds c h
  omega

lemma digit_not_break (c : Nat) (h : isDigitN c = true) : isLineBreakN c = false := by
  have := isDigitN_bounds c h
  simp only [isLineBreakN, decide_eq_false_iff_not]
  omega

lemma dropWhile_all_false (p : Nat → Bool) (l : List Nat) (h : ∀ c ∈ l, p c = false) :
    l.dropWhile p = l := by
  cases l with
  | nil => rfl
  | cons c cs =>
    rw [List.dropWhile_cons]
    simp [h c (List.mem_cons_self c cs)]

lemma pyStrip_digits (d : List Nat) (h : ∀ c ∈ d, isDigitN c = true) : pyStrip d = d := by
  have hns : ∀ c ∈ d, isSpaceN c = false := by
    intro c hc
    have hb := isDigitN_bounds c (h c hc)
    simp only [isSpaceN, decide_eq_false_iff_not]
    omega
  unfold pyStrip
  rw [dropWhile_all_false isSpaceN d hns,
    dropWhile_all_false isSpaceN d.reverse (fun c hc => hns c (List.mem_reverse.mp hc)),
    List.reverse_reverse]

lemma pyDigitsTail_digits (d : List Nat) (acc : Nat) (h : ∀ c ∈ d, isDigitN c = true) :
    pyDigitsTail d acc = some (d.foldl (fun a c => a * 10 + (c - 48)) acc) := by
  induction d generalizing acc with
  | nil => rfl
  | cons c cs ih =>
    have hc := h c (List.mem_cons_self c cs)
    have h95 : ¬(c = 95) := by
      have := isDigitN_bounds c hc
      omega
    show pyDigitsTailF false (c :: cs) acc = _
    simp only [pyDigitsTailF, if_neg h95, hc, if_true]
    exact ih _ (fun x hx => h x (List.mem_cons_of_mem c hx))

lemma pyInt_digits (d : List Nat) (hne : d ≠ []) (h : ∀ c ∈ d, isDigitN c = true) :
    pyInt d = some ((digitsVal d : Nat) : Int) := by
  unfold pyInt
  rw [pyStrip_digits d h]
  cases d with
  | nil => exact absurd rfl hne
  | cons c cs =>
    have hc := h c (List.mem_cons_self c cs)
    have hb := isDigitN_bounds c hc
    have h43 : ¬(c = 43) := by omega
    have h45 : ¬(c = 45) := by omega
    show (if c = 43 then (natPart cs).map (fun n => (n : Int))
      else if c = 45 then (natPart cs).map (fun n => -(n : Int))
      else (natPart (c :: cs)).map (fun n => (n : Int)))
      = some ((digitsVal (c :: cs) : Nat) : Int)
    rw [if_neg h43, if_neg h45]
    show ((if isDigitN c = true then pyDigitsTail cs (c - 48) else none).map
      (fun n => (n : Int))) = _
    rw [if_pos hc, pyDigitsTail_digits cs _ (fun x hx => h x (List.mem_cons_of_mem c hx))]
    simp [digitsVal, List.foldl_cons]

lemma pySplitAux_append (sep : Nat) (f rest acc : List Nat) (h : ∀ c ∈ f, ¬(c = sep)) :
    pySplitAux sep (f ++ sep :: rest) acc =
      (acc.reverse ++ f) :: pySplitAux sep rest [] := by
  induction f generalizing acc with
  | nil =>
    simp only [List.nil_append, pySplitAux, if_pos rfl]
    simp
  | cons c cs ih =>
    simp only [List.cons_append, pySplitAux, if_neg (h c (List.mem_cons_self c cs)),
      List.append_eq]
    rw [ih (c :: acc) (fun x hx => h x (List.mem_cons_of_mem c hx))]
    simp

lemma pySplitAux_last (sep : Nat) (f acc : List Nat) (h : ∀ c ∈ f, ¬(c = sep)) :
    pySplitAux sep f acc = [acc.reverse ++ f] := by
  induction f generalizing acc with
  | nil => simp [pySplitAux]
  | cons c cs ih =>
    simp only [pySplitAux, if_neg (h c (List.mem_cons_self c cs))]
    rw [ih (c :: acc) (fun x hx => h x (List.mem_cons_of_mem c hx))]
    simp

lemma pySplit_record (n d1 d2 : List Nat) (hn : ∀ c ∈ n, ¬(c = 59))
    (h1 : ∀ c ∈ d1, ¬(c = 59)) (h2 : ∀ c ∈ d2, ¬(c = 59)) :
    pySplit 59 (n ++ 59 :: (d1 ++ 59 :: d2)) = [n, d1, d2] := by
  unfold pySplit
  rw [pySplitAux_append 59 n _ [] hn, pySplitAux_append 59 d1 _ [] h1,
    pySplitAux_last 59 d2 [] h2]
  simp

lemma pySplitlinesAux_append (row rest acc : List Nat)
    (h : ∀ c ∈ row, isLineBreakN c = false) :
    pySplitlinesAux false (row ++ 10 :: rest) acc =
      (acc.reverse ++ row) :: pySplitlinesAux false rest [] := by
  induction row generalizing acc with
  | nil =>
    simp only [List.nil_append, pySplitlinesAux]
    norm_num [isLineBreakN]
  | cons c cs ih =>
    have hc := h c (List.mem_cons_self c cs)
    simp only [List.cons_append, pySplitlinesAux, hc, if_false, false_and,
      Bool.false_eq_true, List.append_eq]
    rw [ih (c :: acc) (fun x hx => h x (List.mem_cons_of_mem c hx))]
    simp

/-- Concatenation of records, each terminated by a line feed, as the hub
sends the GetCovers body. -/
def joinLines : List (List Nat) → List Nat
  | [] => []
  | r :: rs => r ++ 10 :: joinLines rs

lemma pySplitlines_joinLines (rows : List (List Nat)) :
    (∀ r ∈ rows, ∀ c ∈ r, isLineBreakN c = false) →
    pySplitlines (joinLines rows) = rows := by
  induction rows with
  | nil => intro _; rfl
  | cons r rs ih =>
    intro h
    show pySplitlinesAux false (r ++ 10 :: joinLines rs) [] = r :: rs
    rw [pySplitlinesAux_append r (joinLines rs) [] (h r (List.mem_cons_self r rs))]
    have hrs := ih (fun x hx c hc => h x (List.mem_cons_of_mem r hx) c hc)
    unfold pySplitlines at hrs
    rw [hrs]
    simp

/-- One well-formed GetCovers record, before rendering: a name free of
semicolons and line boundaries, and two nonempty decimal digit strings. -/
structure RowT where
  name : List Nat
  ridS : List Nat
  rcS : List Nat
deriving DecidableEq

def renderRow (t : RowT) : List Nat := t.name ++ 59 :: (t.ridS ++ 59 :: t.rcS)

def wfRow (t : RowT) : Prop :=
  (∀ c ∈ t.name, ¬(c = 59) ∧ isLineBreakN c = false) ∧
  t.ridS ≠ [] ∧ (∀ c ∈ t.ridS, isDigitN c = true) ∧
  t.rcS ≠ [] ∧ (∀ c ∈ t.rcS, isDigitN c = true)

instance (t : RowT) : Decidable (wfRow t) := by
  unfold wfRow
  infer_instance

def coverOfRowT (t : RowT) : Cover :=
  ⟨t.name, ((digitsVal t.ridS : Nat) : Int), ((digitsVal t.rcS : Nat) : Int)⟩

lemma renderRow_no_break (t : RowT) (h : wfRow t) :
    ∀ c ∈ renderRow t, isLineBreakN c = false := by
  obtain ⟨hname, _, hd1, _, hd2⟩ := h
  intro c hc
  unfold renderRow at hc
  rcases List.mem_append.mp hc with hn | hrest
  · exact (hname c hn).2
  · rcases List.mem_cons.mp hrest with rfl | hrest2
    · decide
    · rcases List.mem_append.mp hrest2 with hm1 | hr3
      · exact digit_not_break c (hd1 c hm1)
      · rcases List.mem_cons.mp hr3 with rfl | hm2
        · decide
        · exact digit_not_break c (hd2 c hm2)

lemma coverOfRow_render (t : RowT) (h : wfRow t) :
    coverOfRow (renderRow t) = .ok (coverOfRowT t) := by
  obtain ⟨hname, hr1, hd1, hr2, hd2⟩ := h
  have hsplit : pySplit 59 (renderRow t) = [t.name, t.ridS, t.rcS] :=
    pySplit_record t.name t.ridS t.rcS (fun c hc => (hname c hc).1)
      (fun c hc => digit_ne_semi c (hd1 c hc)) (fun c hc => digit_ne_semi c (hd2 c hc))
  unfold coverOfRow
  rw [hsplit]
  simp only [pyInt_digits t.ridS hr1 hd1, pyInt_digits t.rcS hr2 hd2]
  rfl

lemma filter_map_render (ts : List RowT) :
    (ts.map renderRow).filter (fun r => !r.isEmpty) = ts.map renderRow := by
  rw [List.filter_eq_self]
  intro r hr
  obtain ⟨t, _, rfl⟩ := List.mem_map.mp hr
  cases hnm : t.name with
  | nil => simp [renderRow, hnm]
  | cons a as => simp [renderRow, hnm]

lemma exMapM_map_ok (ts : List RowT)
    (h : ∀ t ∈ ts, coverOfRow (renderRow t) = .ok (coverOfRowT t)) :
    exMapM coverOfRow (ts.map renderRow) = .ok (ts.map coverOfRowT) := by
  induction ts with
  | nil => rfl
  | cons t ts ih =>
    simp only [List.map_cons, exMapM]
    rw [h t (List.mem_cons_self t ts), ih (fun x hx => h x (List.mem_cons_of_mem t hx))]

/-- CLAIM C5: a successful GetCovers response with body `A;1;100\nB;2;200\n`
yields SUCCESS with exactly `[Cover(A,1,100), Cover(B,2,200)]` in order; in
general any sequence of well-formed newline-terminated records parses to
the corresponding covers in received order, and blank lines are skipped. -/
theorem C5_getAllCovers_parsing :
    getAllCoversFromResponse (strLit ("0A;1;100\nB;2;200\n")) =
      .ok ⟨.SUCCESS, .covers [⟨strLit ("A"), 1, 100⟩, ⟨strLit ("B"), 2, 200⟩]⟩ ∧
    (∀ ts : List RowT, (∀ t ∈ ts, wfRow t) →
      parseCovers (joinLines (ts.map renderRow)) = .ok (ts.map coverOfRowT)) ∧
    parseCovers (strLit ("A;1;100\n\nB;2;200\n")) =
      .ok [⟨strLit ("A"), 1, 100⟩, ⟨strLit ("B"), 2, 200⟩] := by
  refine ⟨by decide, ?_, by decide⟩
  intro ts h
  unfold parseCovers
  rw [pySplitlines_joinLines (ts.map renderRow) ?rowsOk]
  case rowsOk =>
    intro r hr
    obtain ⟨t, ht, rfl⟩ := List.mem_map.mp hr
    exact renderRow_no_break t (h t ht)
  rw [filter_map_render ts]
  exact exMapM_map_ok ts (fun t ht => coverOfRow_render t (h t ht))

theorem C5_getAllCovers_parsing_witness :
    parseCovers (joinLines (([⟨[65], [49], [49, 48, 48]⟩] : List RowT).map renderRow)) =
      .ok (([⟨[65], [49], [49, 48, 48]⟩] : List RowT).map coverOfRowT) :=
  C5_getAllCovers_parsing.2.1 [⟨[65], [49], [49, 48, 48]⟩] (by decide)

lemma exMapM_error_of_mem (l : List (List Nat)) (x : List Nat) (hx : x ∈ l) (e : PyErr)
    (hfx : coverOfRow x = .error e) :
    ∃ e2, exMapM coverOfRow l = .error e2 := by
  induction l with
  | nil => cases hx
  | cons y ys ih =>
    rcases List.mem_cons.mp hx with rfl | hmem
    · exact ⟨e, by simp only [exMapM, hfx]⟩
    · cases hy : coverOfRow y with
      | error e3 => exact ⟨e3, by simp only [exMapM, hy]⟩
      | ok cov =>
        obtain ⟨e2, he2⟩ := ih hmem
        exact ⟨e2, by simp only [exMapM, hy, he2]⟩

/-- CLAIM C6 (amended): a response that fails to decode at the status level
is returned as a Result (no exception escapes), but a successfully decoded
GetCovers body containing a nonempty record on which the `Cover`
construction fails — not a semicolon-separated triple, or a non-decimal
remoteId/rollingCode — makes `getAllCovers` raise the exception instead of
returning an ERROR Result. -/
theorem C6_malformed_responses :
    (∀ rb : List Nat, (decodeResponse rb).status ≠ .SUCCESS →
      getAllCoversFromResponse rb =
        .ok ⟨(decodeResponse rb).status, .msg (decodeResponse rb).body⟩) ∧
    (∀ rb : List Nat, ∀ row : List Nat,
      (decodeResponse rb).status = .SUCCESS →
      row ∈ pySplitlines (decodeResponse rb).body → row ≠ [] →
      (∃ e, coverOfRow row = .error e) →
      ∃ e2, getAllCoversFromResponse rb = .error e2) := by
  constructor
  · intro rb h
    unfold getAllCoversFromResponse getAllCoversFromRes
    rw [if_pos h]
  · intro rb row hs hmem hne hex
    obtain ⟨e, he⟩ := hex
    have hrow : row ∈ (pySplitlines (decodeResponse rb).body).filter
        (fun r => !r.isEmpty) := by
      rw [List.mem_filter]
      exact ⟨hmem, by simp [hne]⟩
    obtain ⟨e2, he2⟩ := exMapM_error_of_mem _ row hrow e he
    refine ⟨e2, ?_⟩
    unfold getAllCoversFromResponse getAllCoversFromRes
    rw [if_neg (by simp [hs])]
    unfold parseCovers
    rw [he2]

/-- CLAIM C6 (counterexample): a SUCCESS response whose body holds the
record `A;1` (two fields) makes `getAllCovers` raise `TypeError`, and one
with record `A;x;1` (non-decimal remoteId) raise `ValueError`, instead of
returning a Result with status ERROR. -/
theorem C6_counterexample :
    getAllCoversFromResponse (strLit ("0A;1\n")) = .error .typeError ∧
    getAllCoversFromResponse (strLit ("0A;x;1\n")) = .error .valueError := by
  decide

theorem C6_malformed_responses_witness :
    getAllCoversFromResponse [49] = .ok ⟨.ERROR, .msg []⟩ ∧
    ∃ e2, getAllCoversFromResponse (strLit ("0A;1\n")) = .error e2 :=
  ⟨(C6_malformed_responses.1 [49] (by decide)).trans (by decide),
   C6_malformed_responses.2 (strLit ("0A;1\n")) (strLit ("A;1")) (by decide) (by decide)
     (by decide) ⟨.typeError, by decide⟩⟩

end Somfy
